import Mathlib

/-!
Verification of the ds-rs driver-station core: bit-flag wire types, the
`Mode` decode/encode pair, the UDP codec, the per-substate state records,
the sender sequence counter, and the per-substate locking discipline.
Definitions follow `src/ds/state.rs` and `src/proto/udp.rs`; parts of the
crate not present in the provided sources (flag bit values, packet byte
layouts, the send/recv/tcp substate modules and the socket task loops) are
modelled from the specification and say so in their doc comments.
-/

namespace DsRs

/-- Modelled from the spec: `Status` is a bit-flag set over a single wire
byte (`proto/udp/inbound/types` is not among the provided sources). Each
named flag occupies one distinct bit; construction from an arbitrary wire
byte accepts any bit pattern. -/
structure Status where
  bits : Nat
deriving DecidableEq

namespace Status

/-- Modelled from the spec: the teleoperated mode flag, one distinct bit. -/
def TELEOP : Status := ⟨0x04⟩

/-- Modelled from the spec: the autonomous mode flag, one distinct bit. -/
def AUTO : Status := ⟨0x02⟩

/-- Modelled from the spec: the test mode flag, one distinct bit. -/
def TEST : Status := ⟨0x01⟩

/-- Modelled from the spec: a diagnostic flag outside the three mode bits. -/
def ENABLED : Status := ⟨0x08⟩

/-- Modelled from the spec: the brownout diagnostic flag. -/
def BROWNOUT : Status := ⟨0x10⟩

/-- Modelled from the spec: the code-started diagnostic flag. -/
def CODE_START : Status := ⟨0x20⟩

/-- Modelled from the spec: the emergency-stop diagnostic flag. -/
def ESTOP : Status := ⟨0x80⟩

/-- Membership test of a bit-flag set: bitwise AND against the flag mask,
as the spec prescribes for the wire types and as the `bitflags` crate
implements `contains`. -/
def contains (s flag : Status) : Bool := s.bits &&& flag.bits == flag.bits

end Status

/-- Modelled from the spec: `Control` is the outbound bit-flag set over a
single wire byte (`proto/udp/outbound/types` is not among the provided
sources). Each named flag occupies one distinct bit. -/
structure Control where
  bits : Nat
deriving DecidableEq

namespace Control

/-- Modelled from the spec: the teleoperated control flag. -/
def TELEOP : Control := ⟨0x04⟩

/-- Modelled from the spec: the autonomous control flag. -/
def AUTO : Control := ⟨0x02⟩

/-- Modelled from the spec: the test control flag. -/
def TEST : Control := ⟨0x01⟩

/-- Modelled from the spec: the enabled control flag. -/
def ENABLED : Control := ⟨0x08⟩

/-- The empty control flag set (all bits clear). -/
def empty : Control := ⟨0⟩

/-- Bitwise union of two control flag sets. -/
def union (a b : Control) : Control := ⟨a.bits ||| b.bits⟩

end Control

/-- The operating mode of the robot, from `src/ds/state.rs`. -/
inductive Mode
  | Autonomous
  | Teleoperated
  | Test
deriving DecidableEq

/-- `Mode::from_status` from `src/ds/state.rs`: decodes the mode of the
robot from the given status byte, testing `TELEOP`, then `AUTO`, then
`TEST`, else no mode. -/
def Mode.from_status (status : Status) : Option Mode :=
  if status.contains Status.TELEOP then
    some Mode.Teleoperated
  else if status.contains Status.AUTO then
    some Mode.Autonomous
  else if status.contains Status.TEST then
    some Mode.Test
  else
    none

/-- `Mode::to_control` from `src/ds/state.rs`: converts this `Mode` into a
`Control` byte for encoding the control packet. -/
def Mode.to_control : Mode → Control
  | Mode.Teleoperated => Control.TELEOP
  | Mode.Autonomous => Control.AUTO
  | Mode.Test => Control.TEST

/-- The status flag set containing only the given mode's bit (the clean
single-bit status byte of the round-trip property). -/
def Mode.statusFlag : Mode → Status
  | Mode.Teleoperated => Status.TELEOP
  | Mode.Autonomous => Status.AUTO
  | Mode.Test => Status.TEST

/-- Modelled from the spec: the inbound status/telemetry packet
(`proto/udp/inbound` is not among the provided sources): sequence number,
status flags, and diagnostic scalars carried in the datagram (trace byte,
battery voltage bytes, date-request flag), passed through unmodified. -/
structure UdpResponsePacket where
  seq : Nat
  status : Status
  trace : Nat
  battery : Nat × Nat
  need_date : Bool
deriving DecidableEq

/-- Modelled from the spec: `UdpResponsePacket::decode` parses one inbound
datagram from the front of the byte buffer (`proto/udp/inbound` is not
among the provided sources). The spec requires a fixed-size datagram with a
version header: wrong length or an invalid header fails; on success the
consumed bytes are removed from the buffer and a typed packet is produced. -/
def UdpResponsePacket.decode (buf : List Nat) :
    Except String (UdpResponsePacket × List Nat) :=
  if buf.length < 8 then
    Except.error "wrong length"
  else if buf.getD 2 0 ≠ 0x01 then
    Except.error "invalid header"
  else
    Except.ok
      ({ seq := buf.getD 0 0 * 256 + buf.getD 1 0,
         status := ⟨buf.getD 3 0⟩,
         trace := buf.getD 4 0,
         battery := (buf.getD 5 0, buf.getD 6 0),
         need_date := buf.getD 7 0 ≠ 0 }, buf.drop 8)

namespace DsUdpCodec

/-- `<DsUdpCodec as Decoder>::decode` from `src/proto/udp.rs`: forwards to
`UdpResponsePacket::decode`; a success becomes `Ok(Some(packet))` and an
error is propagated as-is, never mapped to `Ok(None)`. The mutated buffer
is modelled as the second component of the result. -/
def decode (src : List Nat) :
    Except String (Option UdpResponsePacket × List Nat) :=
  match UdpResponsePacket.decode src with
  | Except.ok (packet, rest) => Except.ok (some packet, rest)
  | Except.error e => Except.error e

end DsUdpCodec

/-- Modelled from the spec: alliance colour, one of the two alliances of a
match (`proto/udp/outbound/types` is not among the provided sources). -/
inductive AllianceColor
  | Red
  | Blue
deriving DecidableEq

/-- Modelled from the spec: `Alliance` is the colour plus the station
number (1..=3), identifying one of six positions. -/
structure Alliance where
  color : AllianceColor
  station : Nat
deriving DecidableEq

/-- Modelled from the spec: the single-byte wire encoding of the alliance
station (the six positions in a fixed order). -/
def Alliance.encode (a : Alliance) : Nat :=
  match a.color with
  | AllianceColor.Red => a.station - 1
  | AllianceColor.Blue => 3 + (a.station - 1)

/-- Modelled from the spec: the outbound control packet: sequence number,
control bits, request byte, alliance/station encoding, and the encoded
joystick-value snapshot (its inner byte layout is out of scope). -/
structure UdpControlPacket where
  seq : Nat
  control : Control
  request : Nat
  alliance : Alliance
  joysticks : List (List Nat)
deriving DecidableEq

/-- Modelled from the spec: `UdpControlPacket::encode` serialises the
packet to bytes (`proto/udp/outbound` is not among the provided sources):
big-endian sequence number, version header, control bits, request byte,
alliance byte, then the joystick payload. -/
def UdpControlPacket.encode (p : UdpControlPacket) : List Nat :=
  [p.seq / 256 % 256, p.seq % 256, 0x01, p.control.bits % 256,
   p.request % 256, p.alliance.encode] ++ p.joysticks.flatten

namespace DsUdpCodec

/-- `<DsUdpCodec as Encoder>::encode` from `src/proto/udp.rs`: extends the
destination buffer with the packet's encoded bytes and returns `Ok(())`.
The mutated buffer is modelled as the second component of the result. -/
def encode (item : UdpControlPacket) (dst : List Nat) :
    Except String Unit × List Nat :=
  (Except.ok (), dst ++ item.encode)

end DsUdpCodec

/-- Modelled from the spec: `SendState` (`src/ds/state/send.rs` is not
among the provided sources): desired alliance, desired enable flag, desired
mode (or none = disabled/no-mode), and the monotonically increasing packet
sequence counter. The joystick-value supplier is modelled by passing the
snapshot it returns to each tick. -/
structure SendState where
  alliance : Alliance
  enabled : Bool
  mode : Option Mode
  seq : Nat
deriving DecidableEq

/-- Modelled from the spec: `SendState::new` starts disabled, with no mode
and the sequence counter at the session's start value. -/
def SendState.new (alliance : Alliance) : SendState :=
  { alliance := alliance, enabled := false, mode := none, seq := 0 }

/-- Modelled from the spec: the control bits of the next outbound packet:
the enable flag or-ed with `Mode::to_control` of the desired mode, or the
pure-disabled bits when no mode is set. -/
def SendState.control (st : SendState) : Control :=
  let base := if st.enabled then Control.ENABLED else Control.empty
  match st.mode with
  | some m => base.union m.to_control
  | none => base

/-- Modelled from the spec: one tick of the fixed-cadence sender over
`SendState`: build the control packet from the current snapshot (sequence
number, control bits, alliance, joystick snapshot) and increment the
sequence counter. -/
def SendState.tick (st : SendState) (sticks : List (List Nat)) :
    SendState × UdpControlPacket :=
  ({ st with seq := st.seq + 1 },
   { seq := st.seq, control := st.control, request := 0,
     alliance := st.alliance, joysticks := sticks })

/-- Modelled from the spec: the sender loop run for one tick per entry of
`outcomes`, each entry recording whether that tick's transmission
succeeded; the outcome is reported to the tick's caller and never fed back
into the state, so a failed transmission still consumes a sequence number.
Returns the final state and the sequence numbers of the produced packets. -/
def senderRun : SendState → List Bool → SendState × List Nat
  | st, [] => (st, [])
  | st, _outcome :: rest =>
      let next := st.tick []
      let tail := senderRun next.1 rest
      (tail.1, next.2.seq :: tail.2)

/-- Modelled from the spec: `RecvState` (`src/ds/state/recv.rs` is not
among the provided sources): the last-decoded status flags, the mode
derived from them (or none), and the diagnostic scalars of the status
datagram passed through unmodified. -/
structure RecvState where
  status : Status
  mode : Option Mode
  trace : Nat
  battery : Nat × Nat
deriving DecidableEq

/-- Modelled from the spec: `RecvState::new` is the zero/default value
("no data yet"). -/
def RecvState.new : RecvState :=
  { status := ⟨0⟩, mode := none, trace := 0, battery := (0, 0) }

/-- Modelled from the spec: one step of the receiver on an inbound
datagram: decode via the codec; on success derive the mode via
`Mode::from_status` and overwrite `RecvState` wholesale; on decode failure
drop the datagram and retain the previous value unchanged. -/
def recvStep (st : RecvState) (datagram : List Nat) : RecvState :=
  match DsUdpCodec.decode datagram with
  | Except.ok (some p, _) =>
      { status := p.status, mode := Mode.from_status p.status,
        trace := p.trace, battery := p.battery }
  | Except.ok (none, _) => st
  | Except.error _ => st

/-- Modelled from the spec: the receiving loop over a sequence of inbound
datagrams; a decode failure never terminates it. -/
def recvLoop (st : RecvState) : List (List Nat) → RecvState
  | [] => st
  | d :: ds => recvLoop (recvStep st d) ds

/-- Modelled from the spec: `TcpState` (`src/ds/state/recv.rs` is not
among the provided sources): the reliable-stream connection status and the
buffered bytes of a resumable message parse. -/
structure TcpState where
  connected : Bool
  pending : List Nat
deriving DecidableEq

/-- Modelled from the spec: `TcpState::new` starts disconnected with an
empty buffer. -/
def TcpState.new : TcpState :=
  { connected := false, pending := [] }

/-- `DsState` from `src/ds/state.rs`: the core state of the driver
station, holding exactly one `SendState`, one `RecvState` and one
`TcpState`, each behind its own independent read/write guard (the guard
wrappers are modelled away; the per-substate locking discipline is treated
separately). -/
structure DsState where
  send_state : SendState
  recv_state : RecvState
  tcp_state : TcpState

/-- `DsState::new` from `src/ds/state.rs`: the send substate is built from
the given alliance; the recv and tcp substates take their default
construction. -/
def DsState.new (alliance : Alliance) : DsState :=
  { send_state := SendState.new alliance,
    recv_state := RecvState.new,
    tcp_state := TcpState.new }

/-- `DsState::send` from `src/ds/state.rs`: the guard of the send substate
only. -/
def DsState.send (ds : DsState) : SendState := ds.send_state

/-- `DsState::recv` from `src/ds/state.rs`: the guard of the recv substate
only. -/
def DsState.recv (ds : DsState) : RecvState := ds.recv_state

/-- `DsState::tcp` from `src/ds/state.rs`: the guard of the tcp substate
only. -/
def DsState.tcp (ds : DsState) : TcpState := ds.tcp_state

/-- Modelled from the spec: the concurrently scheduled units of work that
share one `DsState`: the sender, the receiver, the stream handler, and the
application (the socket task loops are not among the provided sources). -/
inductive DsTask
  | sender
  | receiver
  | streamHandler
  | app
deriving DecidableEq, Fintype

/-- Modelled from the spec: the three independent per-substate guards of
`DsState`. -/
inductive DsLock
  | sendLock
  | recvLock
  | tcpLock
deriving DecidableEq, Fintype

/-- Modelled from the spec: what one task is doing with the guards: idle,
waiting to acquire one guard, or holding one guard. The locking discipline
of the core — no operation ever holds more than one substate's guard at a
time — is encoded by the shape of this type: a task can hold at most one
guard and cannot wait while holding. -/
inductive TaskPhase
  | idle
  | waiting (l : DsLock)
  | holding (l : DsLock)
deriving DecidableEq, Fintype

/-- Modelled from the spec: a configuration of the concurrent system: each
task's guard phase, plus the enable-flag cell of `SendState` modelled as a
pair written wholesale (both components come from the same write), so a
torn value would show as a mismatched pair. -/
structure SysConfig where
  phase : DsTask → TaskPhase
  sendCell : Nat × Nat

/-- Modelled from the spec: the interleaving semantics of guard
operations: any task may request a guard when idle, acquire a guard it
waits on once no task holds that guard, release a guard it holds, or write
the send cell wholesale while holding the send guard. -/
inductive SysStep : SysConfig → SysConfig → Prop
  | request (s : SysConfig) (t : DsTask) (l : DsLock) :
      s.phase t = TaskPhase.idle →
      SysStep s { s with phase := Function.update s.phase t (TaskPhase.waiting l) }
  | acquire (s : SysConfig) (t : DsTask) (l : DsLock) :
      s.phase t = TaskPhase.waiting l →
      (∀ u, s.phase u ≠ TaskPhase.holding l) →
      SysStep s { s with phase := Function.update s.phase t (TaskPhase.holding l) }
  | release (s : SysConfig) (t : DsTask) (l : DsLock) :
      s.phase t = TaskPhase.holding l →
      SysStep s { s with phase := Function.update s.phase t TaskPhase.idle }
  | write (s : SysConfig) (t : DsTask) (k : Nat) :
      s.phase t = TaskPhase.holding DsLock.sendLock →
      SysStep s { s with sendCell := (k, k) }

/-- Modelled from the spec: the initial configuration: all tasks idle and
the send cell at its default value. -/
def SysConfig.init : SysConfig :=
  { phase := fun _ => TaskPhase.idle, sendCell := (0, 0) }

/-- Mutual exclusion of guard holders: at most one task holds any given
guard. -/
def Consistent (s : SysConfig) : Prop :=
  ∀ t1 t2 l, s.phase t1 = TaskPhase.holding l →
    s.phase t2 = TaskPhase.holding l → t1 = t2

instance (s : SysConfig) : Decidable (Consistent s) := by
  unfold Consistent
  infer_instance

/-- A concrete outbound control packet used to exercise the codec
theorems. -/
def demoPacket : UdpControlPacket :=
  { seq := 0, control := Control.empty, request := 0,
    alliance := { color := AllianceColor.Red, station := 1 },
    joysticks := [] }

/-- A concrete configuration used to exercise the progress theorem: the
application holds the send guard while the sender waits for it. -/
def demoConfig : SysConfig :=
  { phase := fun t =>
      match t with
      | DsTask.app => TaskPhase.holding DsLock.sendLock
      | DsTask.sender => TaskPhase.waiting DsLock.sendLock
      | _ => TaskPhase.idle,
    sendCell := (7, 7) }

end DsRs

open DsRs

/-- C1: `Mode.from_status` is total and deterministic with fixed precedence:
for every status bit-pattern, it returns `Teleoperated` if the TELEOP bit is
set; otherwise `Autonomous` if the AUTO bit is set; otherwise `Test` if the
TEST bit is set; otherwise `none` — the precedence TELEOP > AUTO > TEST >
none holds even when several mode bits are set at once. -/
theorem mode_from_status_precedence (s : Status) :
    (s.contains Status.TELEOP = true → Mode.from_status s = some Mode.Teleoperated) ∧
    (s.contains Status.TELEOP = false → s.contains Status.AUTO = true →
      Mode.from_status s = some Mode.Autonomous) ∧
    (s.contains Status.TELEOP = false → s.contains Status.AUTO = false →
      s.contains Status.TEST = true → Mode.from_status s = some Mode.Test) ∧
    (s.contains Status.TELEOP = false → s.contains Status.AUTO = false →
      s.contains Status.TEST = false → Mode.from_status s = none) := by
  refine ⟨fun h1 => ?_, fun h1 h2 => ?_, fun h1 h2 h3 => ?_, fun h1 h2 h3 => ?_⟩
  · simp [Mode.from_status, h1]
  · simp [Mode.from_status, h1, h2]
  · simp [Mode.from_status, h1, h2, h3]
  · simp [Mode.from_status, h1, h2, h3]

/-- Witness for C1 at a concrete status byte with all three mode bits set:
the precedence resolves it to `Teleoperated`. -/
theorem mode_from_status_precedence_witness :
    Mode.from_status ⟨0x07⟩ = some Mode.Teleoperated :=
  (mode_from_status_precedence ⟨0x07⟩).1 (by decide)

/-- C5: for each mode, decoding the status flag set containing only that
mode's bit yields exactly that mode (so `to_control` composed with this
decode is the identity on the mode value), and `Mode.to_control` is total
over the three variants, mapping `Teleoperated` to the TELEOP control bit,
`Autonomous` to AUTO and `Test` to TEST. -/
theorem mode_round_trip_single_bit (m : Mode) :
    Mode.from_status m.statusFlag = some m ∧
    (Mode.from_status m.statusFlag).map Mode.to_control = some m.to_control ∧
    Mode.to_control Mode.Teleoperated = Control.TELEOP ∧
    Mode.to_control Mode.Autonomous = Control.AUTO ∧
    Mode.to_control Mode.Test = Control.TEST := by
  cases m <;> decide

/-- C9: mode decoding depends only on the three mode bits: any two status
values that agree on their TELEOP, AUTO and TEST bits decode to the same
mode — no other status flag influences the result. -/
theorem mode_from_status_depends_only_on_mode_bits (s1 s2 : Status)
    (h : s1.bits &&& 0x07 = s2.bits &&& 0x07) :
    Mode.from_status s1 = Mode.from_status s2 := by
  have key : ∀ m : Nat, m &&& 0x07 = m → s1.bits &&& m = s2.bits &&& m := by
    intro m hm
    calc s1.bits &&& m = s1.bits &&& (0x07 &&& m) := by
          rw [show (0x07 : Nat) &&& m = m from by rw [Nat.and_comm]; exact hm]
      _ = (s1.bits &&& 0x07) &&& m := by rw [Nat.and_assoc]
      _ = (s2.bits &&& 0x07) &&& m := by rw [h]
      _ = s2.bits &&& (0x07 &&& m) := by rw [Nat.and_assoc]
      _ = s2.bits &&& m := by
          rw [show (0x07 : Nat) &&& m = m from by rw [Nat.and_comm]; exact hm]
  have hT : s1.contains Status.TELEOP = s2.contains Status.TELEOP := by
    simp only [Status.contains, Status.TELEOP, key 0x04 (by decide)]
  have hA : s1.contains Status.AUTO = s2.contains Status.AUTO := by
    simp only [Status.contains, Status.AUTO, key 0x02 (by decide)]
  have hE : s1.contains Status.TEST = s2.contains Status.TEST := by
    simp only [Status.contains, Status.TEST, key 0x01 (by decide)]
  simp only [Mode.from_status, hT, hA, hE]

/-- Witness for C9: a bare TELEOP status byte and one with the e-stop,
brownout and enabled diagnostics added decode to the same mode. -/
theorem mode_from_status_depends_only_on_mode_bits_witness :
    Mode.from_status ⟨0x04⟩ = Mode.from_status ⟨0x9C⟩ :=
  mode_from_status_depends_only_on_mode_bits ⟨0x04⟩ ⟨0x9C⟩ (by decide)

/-- C2: the UDP codec's decode never signals "need more data": for every
input buffer it either returns a successfully parsed packet (`some`) or an
error — it is never `Ok` of `none`, because on this datagram-oriented
channel a short read means a malformed datagram, never a partial one. -/
theorem udp_decode_never_none (src : List Nat) :
    ((∃ p rest, DsUdpCodec.decode src = Except.ok (some p, rest)) ∨
      (∃ e, DsUdpCodec.decode src = Except.error e)) ∧
    (∀ rest, DsUdpCodec.decode src ≠ Except.ok (none, rest)) := by
  unfold DsUdpCodec.decode
  cases h : UdpResponsePacket.decode src with
  | ok pr =>
      exact ⟨Or.inl ⟨pr.1, pr.2, rfl⟩, fun rest hc => by
        simp at hc⟩
  | error e =>
      exact ⟨Or.inr ⟨e, rfl⟩, fun rest hc => by simp at hc⟩

/-- C6: the UDP codec's encode has no failure mode: for every outbound
control packet and destination buffer it returns `Ok(())` unconditionally,
and its effect on the buffer is to grow it by appending the packet's
encoded bytes. -/
theorem udp_encode_total (item : UdpControlPacket) (dst : List Nat) :
    (DsUdpCodec.encode item dst).1 = Except.ok () ∧
    (DsUdpCodec.encode item dst).2 = dst ++ item.encode := by
  constructor <;> rfl

/-- C10: encode preserves prior buffer contents: the bytes already present
remain an unchanged prefix of the result, which is exactly the old contents
followed by the packet's encoded bytes — nothing is overwritten or
removed. -/
theorem udp_encode_keeps_old_bytes (item : UdpControlPacket) (dst : List Nat) :
    dst <+: (DsUdpCodec.encode item dst).2 ∧
    (DsUdpCodec.encode item dst).2.take dst.length = dst ∧
    (DsUdpCodec.encode item dst).2.drop dst.length = item.encode := by
  refine ⟨⟨item.encode, rfl⟩, ?_, ?_⟩
  · show List.take dst.length (dst ++ item.encode) = dst
    exact List.take_left dst item.encode
  · show List.drop dst.length (dst ++ item.encode) = item.encode
    exact List.drop_left dst item.encode

/-- C3: the outbound sequence counter strictly increases by exactly 1 per
sender tick and never resets: after one tick per transmission outcome, the
sequence numbers of the produced control packets are exactly
`start, start + 1, …, start + N - 1`, regardless of whether each tick's
transmission succeeded (a failed transmission still consumes a sequence
number), and the counter ends at `start + N`. -/
theorem sender_seq_counter (st : SendState) (outcomes : List Bool) :
    (senderRun st outcomes).2 = List.range' st.seq outcomes.length ∧
    (senderRun st outcomes).1.seq = st.seq + outcomes.length := by
  induction outcomes generalizing st with
  | nil => exact ⟨rfl, rfl⟩
  | cons o rest ih =>
      have h := ih { st with seq := st.seq + 1 }
      refine ⟨?_, ?_⟩
      · show st.seq :: (senderRun { st with seq := st.seq + 1 } rest).2 =
          List.range' st.seq (rest.length + 1)
        rw [List.range'_succ, h.1]
      · show (senderRun { st with seq := st.seq + 1 } rest).1.seq =
          st.seq + (rest.length + 1)
        rw [h.2]
        show st.seq + 1 + rest.length = st.seq + (rest.length + 1)
        omega

/-- C4: receive-side atomicity on decode failure: a malformed inbound
datagram leaves `RecvState` completely unchanged (no partial overwrite of
any field) and does not terminate the receiving loop — processing the
failing datagram then the rest equals processing the rest alone, so
readers continue to observe the last successfully decoded telemetry. -/
theorem recv_unchanged_on_decode_failure (st : RecvState) (buf : List Nat)
    (e : String) (h : DsUdpCodec.decode buf = Except.error e) :
    recvStep st buf = st ∧
    (∀ ds, recvLoop st (buf :: ds) = recvLoop st ds) := by
  have hstep : recvStep st buf = st := by
    unfold recvStep
    rw [h]
  exact ⟨hstep, fun ds => by simp [recvLoop, hstep]⟩

/-- Witness for C4 at a concrete truncated datagram (two bytes, shorter
than the fixed layout): the state is retained and the loop continues. -/
theorem recv_unchanged_on_decode_failure_witness :
    recvStep RecvState.new [0, 5] = RecvState.new ∧
    recvLoop RecvState.new [[0, 5]] = recvLoop RecvState.new [] := by
  have h := recv_unchanged_on_decode_failure RecvState.new [0, 5]
    "wrong length" rfl
  exact ⟨h.1, h.2 []⟩

/-- C7: `DsState` aggregates exactly one `SendState`, one `RecvState` and
one `TcpState`: `DsState::new` builds the send substate from the given
alliance and the recv and tcp substates from their default constructions,
and each accessor returns exactly its own substate (never a combined one) —
on any aggregate, `send`, `recv` and `tcp` project the three components
independently. -/
theorem ds_state_aggregate (a : Alliance) :
    (DsState.new a).send = SendState.new a ∧
    (DsState.new a).recv = RecvState.new ∧
    (DsState.new a).tcp = TcpState.new ∧
    (∀ (s : SendState) (r : RecvState) (t : TcpState),
      (DsState.mk s r t).send = s ∧ (DsState.mk s r t).recv = r ∧
        (DsState.mk s r t).tcp = t) :=
  ⟨rfl, rfl, rfl, fun _s _r _t => ⟨rfl, rfl, rfl⟩⟩

/-- C8: deadlock freedom by lock discipline: since no task ever holds more
than one substate's guard at a time (encoded in `TaskPhase`), in every
configuration with at most one holder per guard any waiting task can reach
a configuration where it holds its guard (no interleaving deadlocks); and
along every interleaving from the initial configuration, the send cell —
written wholesale only under its guard — is never torn: both components of
the observed pair always come from the same write. -/
theorem lock_discipline_no_deadlock :
    (∀ (s : SysConfig) (t : DsTask) (l : DsLock), Consistent s →
      s.phase t = TaskPhase.waiting l →
      ∃ s2, Relation.ReflTransGen SysStep s s2 ∧
        s2.phase t = TaskPhase.holding l) ∧
    (∀ s, Relation.ReflTransGen SysStep SysConfig.init s →
      s.sendCell.1 = s.sendCell.2) := by
  constructor
  · intro s t l hcons hwait
    by_cases hheld : ∃ u, s.phase u = TaskPhase.holding l
    · obtain ⟨u, hu⟩ := hheld
      have hne : t ≠ u := by
        intro heq
        rw [heq, hu] at hwait
        exact absurd hwait (by simp)
      have step1 : SysStep s
          { s with phase := Function.update s.phase u TaskPhase.idle } :=
        SysStep.release s u l hu
      have hwait1 : (Function.update s.phase u TaskPhase.idle) t =
          TaskPhase.waiting l := by
        rw [Function.update_noteq hne]
        exact hwait
      have hfree : ∀ v, (Function.update s.phase u TaskPhase.idle) v ≠
          TaskPhase.holding l := by
        intro v
        by_cases hv : v = u
        · subst hv
          rw [Function.update_same]
          simp
        · rw [Function.update_noteq hv]
          intro hvh
          exact hv (hcons v u l hvh hu)
      have step2 := SysStep.acquire
        { s with phase := Function.update s.phase u TaskPhase.idle } t l
        hwait1 hfree
      refine ⟨_, Relation.ReflTransGen.head step1
        (Relation.ReflTransGen.single step2), ?_⟩
      simp [Function.update_same]
    · push_neg at hheld
      have step := SysStep.acquire s t l hwait hheld
      refine ⟨_, Relation.ReflTransGen.single step, ?_⟩
      simp [Function.update_same]
  · intro s hreach
    have general : ∀ a b, Relation.ReflTransGen SysStep a b →
        a.sendCell.1 = a.sendCell.2 → b.sendCell.1 = b.sendCell.2 := by
      intro a b hab
      induction hab with
      | refl => exact fun h => h
      | tail _ hstep ih =>
          intro ha
          cases hstep with
          | request t l h => exact ih ha
          | acquire t l h hfree => exact ih ha
          | release t l h => exact ih ha
          | write t k h => rfl
    exact general SysConfig.init s hreach rfl

/-- Witness for C8: in the concrete configuration where the application
holds the send guard and the sender waits for it, the sender can reach a
configuration where it holds the guard; and the initial send cell is not
torn. -/
theorem lock_discipline_no_deadlock_witness :
    (∃ s2, Relation.ReflTransGen SysStep demoConfig s2 ∧
      s2.phase DsTask.sender = TaskPhase.holding DsLock.sendLock) ∧
    SysConfig.init.sendCell.1 = SysConfig.init.sendCell.2 :=
  ⟨lock_discipline_no_deadlock.1 demoConfig DsTask.sender DsLock.sendLock
      (by decide) rfl,
    lock_discipline_no_deadlock.2 SysConfig.init Relation.ReflTransGen.refl⟩

/-- Witness for C2 at the empty buffer: the codec reports an error rather
than signalling "need more data". -/
theorem udp_decode_never_none_witness :
    (∃ p rest, DsUdpCodec.decode [] = Except.ok (some p, rest)) ∨
      (∃ e, DsUdpCodec.decode [] = Except.error e) :=
  (udp_decode_never_none []).1

/-- Witness for C3: three ticks from a fresh send state produce exactly
the sequence numbers 0, 1, 2, whatever each tick's transmission outcome. -/
theorem sender_seq_counter_witness :
    (senderRun (SendState.new { color := AllianceColor.Red, station := 1 })
      [true, false, true]).2 = List.range' 0 3 :=
  (sender_seq_counter
    (SendState.new { color := AllianceColor.Red, station := 1 })
    [true, false, true]).1

/-- Witness for C5 at the teleoperated variant: its single-bit status byte
decodes back to it. -/
theorem mode_round_trip_single_bit_witness :
    Mode.from_status Mode.Teleoperated.statusFlag = some Mode.Teleoperated :=
  (mode_round_trip_single_bit Mode.Teleoperated).1

/-- Witness for C6 at a concrete packet and a one-byte buffer: encoding
returns `Ok(())`. -/
theorem udp_encode_total_witness :
    (DsUdpCodec.encode demoPacket [9]).1 = Except.ok () :=
  (udp_encode_total demoPacket [9]).1

/-- Witness for C7 at a concrete alliance: the recv accessor of a fresh
aggregate returns the default-constructed recv substate. -/
theorem ds_state_aggregate_witness :
    (DsState.new { color := AllianceColor.Blue, station := 2 }).recv =
      RecvState.new :=
  (ds_state_aggregate { color := AllianceColor.Blue, station := 2 }).2.1

/-- Witness for C10 at a concrete packet and a two-byte buffer: the prior
contents remain a prefix of the encoded result. -/
theorem udp_encode_keeps_old_bytes_witness :
    [1, 2] <+: (DsUdpCodec.encode demoPacket [1, 2]).2 :=
  (udp_encode_keeps_old_bytes demoPacket [1, 2]).1
